import Mathlib

/-!
Verification of the FileDrop file-management application.

Shallow embedding of:
  * `backend/server.js` — multer upload gate, `authenticateUser` middleware,
    and the `/analyze-file`, `/upload`, `/files` (list), `DELETE /files/:filename`
    and `PUT /files/:filename` route handlers over an explicit server state
    (the `files` table plus the storage bucket);
  * `frontend/src/components/FileManager.js` — the dropzone configuration,
    the rename dialog, and the upload/analyze/confirm client state machine.

External services (Supabase storage/database, the identity provider and the
generative-model endpoint) are modelled by their client-visible contract:
storage is a bucket keyed by object name alone, the `files` table is a list
of rows, token validation is an oracle parameter, and the AI output is an
input parameter.  External-infrastructure failures (network faults, database
outages) are not modelled; the error returns that the client library reports
in normal operation (`.single()` on a non-singleton result set, duplicate
object on a non-upsert upload, download of a missing object) are modelled
faithfully.
-/

namespace FileDrop

/-! ### JavaScript string primitives, char-list based so the kernel evaluates them -/

/-- JS `String.prototype.startsWith`: prefix test. -/
def jsStartsWith (s p : String) : Bool :=
  s.data.take p.data.length == p.data

/-- JS `String.prototype.substring(n)`: drop the first `n` characters. -/
def jsSubstring (s : String) (n : Nat) : String :=
  String.mk (s.data.drop n)

/-- JS `String.prototype.trim`: strip whitespace from both ends. -/
def jsTrim (s : String) : String :=
  String.mk (((s.data.dropWhile Char.isWhitespace).reverse.dropWhile Char.isWhitespace).reverse)

/-- JS `String.prototype.toLowerCase` (ASCII fragment). -/
def jsToLower (s : String) : String :=
  String.mk (s.data.map Char.toLower)

/-- JS `s.split(".")` on the underlying character list.  It always returns a
nonempty list of dot-free parts; `"".split(".")` is `[""]`. -/
def splitDot : List Char → List (List Char)
  | [] => [[]]
  | c :: cs =>
    if c = '.' then [] :: splitDot cs
    else
      match splitDot cs with
      | [] => [[c]]
      | h :: t => (c :: h) :: t

/-- JS `Array.prototype.pop` on a nonempty array: its last element
(`d` is never reached on the nonempty lists this is applied to). -/
def lastD {α : Type} : List α → α → α
  | [], d => d
  | [x], _ => x
  | _ :: y :: ys, d => lastD (y :: ys) d

/-- JS `s.split(".").pop()`: the substring after the last dot (the whole
string when there is no dot). -/
def lastDotPart (s : String) : String :=
  String.mk (lastD (splitDot s.data) [])

/-! ### Data model: multipart file, `files` table row, server state -/

abbrev UserId := Nat

/-- Bytes of a stored object, abstracted to a tag. -/
abbrev Bytes := Nat

/-- A multipart file as multer presents it to a handler. -/
structure FileData where
  originalname : String
  mimetype : String
  size : Nat
  buffer : Bytes
deriving Repr, DecidableEq

/-- A row of the `files` table (schema from the upload insert plus the
`user_id` column added by the migration script). -/
structure FileRow where
  name : String
  size : Nat
  tags : List String
  categories : List String
  user_id : UserId
  created_at : Nat
deriving Repr, DecidableEq

/-- Server-side durable state: the `files` table and the storage bucket.
The bucket is keyed by object name alone (no per-user prefix), exactly as
`supabase.storage.from(BUCKET)` is used in `server.js`. -/
structure ServerState where
  db : List FileRow
  storage : List (String × Bytes)
deriving Repr, DecidableEq

/-! ### Storage-bucket operations (Supabase storage client contract) -/

/-- Model of `storage.from(BUCKET).download(n)` / public URL resolution: the object
stored under name `n`, if any. -/
def storageLookup (s : List (String × Bytes)) (n : String) : Option Bytes :=
  (s.find? (fun p => p.1 == n)).map (fun p => p.2)

/-- Model of `storage.from(BUCKET).remove([n])`: drop every object named `n`. -/
def storageRemove (s : List (String × Bytes)) (n : String) : List (String × Bytes) :=
  s.filter (fun p => p.1 != n)

/-- Model of `storage.from(BUCKET).upload(n, b)` without upsert: errors when an object
named `n` already exists. -/
def storageUpload (s : List (String × Bytes)) (n : String) (b : Bytes) :
    Except String (List (String × Bytes)) :=
  match storageLookup s n with
  | some _ => .error ("The resource already exists")
  | none => .ok ((n, b) :: s)

/-- Model of `storage.from(BUCKET).upload(n, b, { upsert: true })`: overwrite any
existing object named `n`. -/
def storageUpsert (s : List (String × Bytes)) (n : String) (b : Bytes) :
    List (String × Bytes) :=
  (n, b) :: storageRemove s n

/-! ### `files`-table operations (Supabase postgrest client contract) -/

/-- Model of `.select("*").eq("name", n).eq("user_id", u)`: the matching rows. -/
def dbMatches (db : List FileRow) (n : String) (u : UserId) : List FileRow :=
  db.filter (fun r => r.name == n && r.user_id == u)

/-- Model of `.single()` on the above: a row only when exactly one row matches,
otherwise the client reports an error. -/
def dbSingle (db : List FileRow) (n : String) (u : UserId) : Option FileRow :=
  match dbMatches db n u with
  | [r] => some r
  | _ => none

/-- Model of `.delete().eq("name", n).eq("user_id", u)`. -/
def dbDelete (db : List FileRow) (n : String) (u : UserId) : List FileRow :=
  db.filter (fun r => !(r.name == n && r.user_id == u))

/-- The effect of `.update({ name: new }).eq("name", old).eq("user_id", u)`
on one row. -/
def renameRow (old new : String) (u : UserId) (r : FileRow) : FileRow :=
  if r.name == old && r.user_id == u then { r with name := new } else r

/-- Model of `.update({ name: new }).eq("name", old).eq("user_id", u)` on the table. -/
def dbUpdateName (db : List FileRow) (old new : String) (u : UserId) : List FileRow :=
  db.map (renameRow old new u)

/-! ### Multer gate (`upload` in server.js) -/

/-- The `allowedTypes` array of the multer `fileFilter`. -/
def allowedTypes : List String :=
  [("image/jpeg"), ("image/png"), ("application/pdf"),
   ("application/vnd.openxmlformats-officedocument.wordprocessingml.document")]

/-- The multer `fileFilter` callback. -/
def fileFilter (mimetype : String) : Except String Unit :=
  if !(allowedTypes.contains mimetype) then
    .error ("Only JPEG, PNG, PDF, and DOCX files are allowed")
  else .ok ()

/-- Model of `limits: { fileSize: 5 * 1024 * 1024 }`. -/
def fileSizeLimit : Nat := 5 * 1024 * 1024

inductive MulterOutcome where
  | filtered (e : String)
  | tooLarge
  | accepted
deriving Repr, DecidableEq

/-- Model of `upload.single("file")` on one incoming file: the `fileFilter` is
consulted when the file part is met; an accepted file is then subject to the
byte-size limit while streaming. -/
def multerGate (f : FileData) : MulterOutcome :=
  match fileFilter f.mimetype with
  | .error e => .filtered e
  | .ok _ => if f.size > fileSizeLimit then .tooLarge else .accepted

inductive MulterRouted (ρ : Type) where
  | rejected (o : MulterOutcome)
  | handled (r : ρ)
deriving Repr, DecidableEq

/-- A route behind `upload.single("file")`: the handler body runs only when
multer did not reject the file, and a multer rejection leaves the server
state untouched. -/
def routeWithMulter {ρ : Type} (file : Option FileData)
    (handler : Option FileData → ServerState → ρ × ServerState)
    (st : ServerState) : MulterRouted ρ × ServerState :=
  match file with
  | none =>
    match handler none st with
    | (r, st2) => (.handled r, st2)
  | some f =>
    match multerGate f with
    | .accepted =>
      match handler (some f) st with
      | (r, st2) => (.handled r, st2)
    | o => (.rejected o, st)

/-! ### `authenticateUser` middleware -/

/-- Model of `authenticateUser` from server.js.  `validate` is the oracle for
`supabase.auth.getUser`: the user of a token the identity provider accepts. -/
def authenticateUser (validate : String → Option UserId)
    (authHeader : Option String) : Except String UserId :=
  match authHeader with
  | none => .error ("No token provided")
  | some h =>
    if !(jsStartsWith h ("Bearer ")) then .error ("No token provided")
    else
      match validate (jsSubstring h 7) with
      | none => .error ("Invalid token")
      | some u => .ok u

inductive Routed (ρ : Type) where
  | unauthorized (e : String)
  | handled (r : ρ)
deriving Repr, DecidableEq

/-- A route behind `authenticateUser`: on middleware failure the response is
401 and the handler never runs; on success the handler runs as `req.user`. -/
def protectedRoute {ρ : Type} (validate : String → Option UserId)
    (authHeader : Option String)
    (handler : UserId → ServerState → ρ × ServerState)
    (st : ServerState) : Routed ρ × ServerState :=
  match authenticateUser validate authHeader with
  | .error e => (.unauthorized e, st)
  | .ok u =>
    match handler u st with
    | (r, st2) => (.handled r, st2)

/-! ### `POST /analyze-file` handler -/

/-- The JSON object the generative-model endpoint returns (after the
code-fence cleanup and `JSON.parse`). -/
structure AnalysisData where
  descriptiveFilename : String
  categories : List String
  tags : List String
deriving Repr, DecidableEq

/-- The response body of `POST /analyze-file`. -/
structure AnalysisResponse where
  descriptiveFilename : String
  categories : List String
  tags : List String
  extension : String
deriving Repr, DecidableEq

/-- Model of `c.toLowerCase().trim()` as applied to each category and tag. -/
def lowerTrim (s : String) : String := jsTrim (jsToLower s)

/-- The `/analyze-file` handler body on an accepted file, with the AI output
`ai` as an input: it lower-cases and trims `categories` and `tags`, attaches
the original file extension, and returns the result. -/
def analyzeHandler (file : FileData) (ai : AnalysisData) : AnalysisResponse :=
  { descriptiveFilename := ai.descriptiveFilename
    categories := ai.categories.map lowerTrim
    tags := ai.tags.map lowerTrim
    extension := lastDotPart file.originalname }

/-! ### `POST /upload` handler -/

/-- The multipart body fields of `POST /upload`.  `tags` and `categories`
stand for the result of `JSON.parse` on the corresponding raw fields (the
parse itself is external); `none` models an absent field. -/
structure UploadBody where
  descriptiveFilename : Option String
  tags : Option (List String)
  categories : Option (List String)
deriving Repr, DecidableEq

/-- JS `a || b` on an optional string: an absent or empty string is falsy. -/
def jsOrElse (o : Option String) (dflt : String) : String :=
  match o with
  | none => dflt
  | some s => if s == ("") then dflt else s

inductive UploadResult where
  | uploaded (message filePath : String)
  | noFile
  | failed (e : String)
deriving Repr, DecidableEq

/-- The `/upload` handler body.  `now` stands for `Date.now()` and for the
database default of `created_at`.  A storage error is caught and reported as
400 with the error message; the metadata insert then never runs. -/
def uploadHandler (u : UserId) (now : Nat) (file : Option FileData)
    (body : UploadBody) (st : ServerState) : UploadResult × ServerState :=
  match file with
  | none => (.noFile, st)
  | some f =>
    let descriptiveFilename :=
      jsOrElse body.descriptiveFilename (toString now ++ ("_") ++ f.originalname)
    let tags := body.tags.getD []
    let categories := body.categories.getD []
    match storageUpload st.storage descriptiveFilename f.buffer with
    | .error e => (.failed e, st)
    | .ok storage1 =>
      let row : FileRow :=
        { name := descriptiveFilename, size := f.size, tags := tags
          categories := categories, user_id := u, created_at := now }
      (.uploaded ("File uploaded successfully") descriptiveFilename,
       { db := st.db ++ [row], storage := storage1 })

/-! ### `GET /files` handler -/

/-- Insertion of a row into a list kept in descending `created_at` order. -/
def insertDesc (r : FileRow) : List FileRow → List FileRow
  | [] => [r]
  | x :: xs =>
    if r.created_at ≥ x.created_at then r :: x :: xs else x :: insertDesc r xs

/-- Model of `.order("created_at", { ascending: false })`. -/
def sortByCreatedDesc : List FileRow → List FileRow
  | [] => []
  | x :: xs => insertDesc x (sortByCreatedDesc xs)

/-- The `/files` list handler: the rows of the `files` table whose `user_id`
is the authenticated user, ordered by `created_at` descending.  (The public
URL attached to each row is presentational: `url = SUPABASE_URL + bucket +
name`; it carries no extra state and is omitted.) -/
def listFiles (u : UserId) (st : ServerState) : List FileRow :=
  sortByCreatedDesc (st.db.filter (fun r => r.user_id == u))

/-! ### `DELETE /files/:filename` handler -/

inductive DeleteResult where
  | deleted
  | notFound
deriving Repr, DecidableEq

/-- The delete handler body: ownership check via `.single()`, then storage
removal, then row deletion. -/
def deleteHandler (u : UserId) (filename : String) (st : ServerState) :
    DeleteResult × ServerState :=
  match dbSingle st.db filename u with
  | none => (.notFound, st)
  | some _ =>
    (.deleted,
     { db := dbDelete st.db filename u
       storage := storageRemove st.storage filename })

/-! ### `PUT /files/:filename` handler -/

inductive RenameResult where
  | renamed
  | notFound
  | badRequest
  | downloadFailed
deriving Repr, DecidableEq

/-- The rename handler body: `newName` presence check (JS falsiness, so an
empty string counts as missing), ownership check via `.single()`, then
storage copy (download, upsert-upload under the new name, remove the old
name — the upload and remove results are not inspected by the code), then
the metadata name update. -/
def renameHandler (u : UserId) (oldName : String) (newName : Option String)
    (st : ServerState) : RenameResult × ServerState :=
  match newName with
  | none => (.badRequest, st)
  | some newName =>
    if newName == ("") then (.badRequest, st)
    else
      match dbSingle st.db oldName u with
      | none => (.notFound, st)
      | some _ =>
        match storageLookup st.storage oldName with
        | none => (.downloadFailed, st)
        | some bytes =>
          (.renamed,
           { db := dbUpdateName st.db oldName newName u
             storage := storageRemove (storageUpsert st.storage newName bytes) oldName })

/-! ### Client: dropzone configuration (FileManager.js `useDropzone`) -/

/-- The `accept` map of the dropzone. -/
def dropzoneAcceptTypes : List String :=
  [("image/jpeg"), ("image/png"), ("application/pdf"),
   ("application/vnd.openxmlformats-officedocument.wordprocessingml.document")]

/-- Model of `maxSize: 5 * 1024 * 1024`. -/
def dropzoneMaxSize : Nat := 5 * 1024 * 1024

/-- react-dropzone acceptance: mimetype in `accept` and size not above
`maxSize`. -/
def dropzoneAccepts (f : FileData) : Bool :=
  dropzoneAcceptTypes.contains f.mimetype && f.size ≤ dropzoneMaxSize

/-- The toast message built by `onDropRejected`; `render` stands for the
JS float formatting `(size / (1024*1024)).toFixed(2)`. -/
def onDropRejectedMessage (render : Nat → String) (f : FileData) : String :=
  ("File is too large: ") ++ render f.size ++ (" MB. Max allowed is 5 MB.")

inductive DropOutcome where
  | request (f : FileData)
  | rejectedToast (msg : String)
deriving Repr, DecidableEq

/-- What a drop does: an accepted file goes to `handleFileAnalysis` (a
network request); a rejected one only raises the toast, no request. -/
def dropzoneOnDrop (render : Nat → String) (f : FileData) : DropOutcome :=
  if dropzoneAccepts f then .request f
  else .rejectedToast (onDropRejectedMessage render f)

/-! ### Client: rename dialog (FileManager.js) -/

/-- Model of `handleRenameClick`: the extension split off the clicked file name
(`nameParts.pop()`, i.e. the part after the last dot). -/
def renameExtension (fileName : String) : String := lastDotPart fileName

/-- Model of `confirmRename`: `none` when the trimmed edited base name is empty (no
request is sent), otherwise the submitted `newName`, the trimmed base
followed by a dot and the extension captured at dialog-open time. -/
def confirmRenameNewName (editedBase : String) (extension : String) : Option String :=
  if (jsTrim editedBase).data = [] then none
  else some (String.mk ((jsTrim editedBase).data ++ '.' :: extension.data))

/-! ### Client: upload/analyze/confirm state machine (FileManager.js)

State components are the `modalState` and `isProcessing` flags together with
presence flags for `fileToUpload`, `analysisResult` and `fileToRename`, plus
a count of requests currently in flight per operation (not a program
variable; it records outstanding network calls).

Event enabledness is read off the rendered JSX and the handler guards:
  * the dropzone and the file-list buttons sit in normal document flow, so
    they are clickable only when neither the full-screen processing overlay
    (`isProcessing.analyzing || isProcessing.uploading`, `fixed inset-0
    z-50`) nor any of the three `fixed inset-0` modals is above them;
  * the confirm-upload modal is rendered after the processing overlay with
    the same `z-50`, so it stacks above the overlay and its `Upload File`
    button stays clickable while an upload is in flight; the button carries
    no `disabled` attribute, and `handleFinalUpload` only guards on
    `fileToUpload` and `analysisResult`;
  * the rename modal's `Save Changes` button has
    `disabled={isProcessing.renaming}`. -/

structure ClientState where
  showDelete : Bool
  showRename : Bool
  showConfirmUpload : Bool
  analyzing : Bool
  uploading : Bool
  -- the source field is `isProcessing.renaming`; `renaming` is a Lean keyword
  isRenaming : Bool
  fileToUpload : Bool
  analysisResult : Bool
  fileToRename : Bool
  analyzeInFlight : Nat
  uploadInFlight : Nat
  renameInFlight : Nat
deriving Repr, DecidableEq

/-- The initial component state: all flags false, nothing in flight. -/
def initClient : ClientState :=
  { showDelete := false, showRename := false, showConfirmUpload := false
    analyzing := false, uploading := false, isRenaming := false
    fileToUpload := false, analysisResult := false, fileToRename := false
    analyzeInFlight := 0, uploadInFlight := 0, renameInFlight := 0 }

/-- True when no full-screen layer (processing overlay or modal) covers the
page content, so the dropzone and the per-file buttons receive clicks. -/
def pageClickable (s : ClientState) : Bool :=
  !(s.analyzing || s.uploading || s.showConfirmUpload || s.showDelete || s.showRename)

inductive UiEvent where
  | dropFile
  | analyzeSuccess
  | analyzeFailure
  | clickUploadFile
  | uploadSettled
  | closeConfirmModal
  | clickRenameIcon
  | clickSaveChanges
  | renameSettled
deriving Repr, DecidableEq

/-- One user or network event; `none` when the event is not enabled in `s`. -/
def stepUi (e : UiEvent) (s : ClientState) : Option ClientState :=
  match e with
  | .dropFile =>
    if pageClickable s then
      some { s with fileToUpload := true, analyzing := true
                    analyzeInFlight := s.analyzeInFlight + 1 }
    else none
  | .analyzeSuccess =>
    if 0 < s.analyzeInFlight then
      some { s with analysisResult := true, showConfirmUpload := true
                    analyzing := false, analyzeInFlight := s.analyzeInFlight - 1 }
    else none
  | .analyzeFailure =>
    if 0 < s.analyzeInFlight then
      some { s with analyzing := false, analyzeInFlight := s.analyzeInFlight - 1 }
    else none
  | .clickUploadFile =>
    if s.showConfirmUpload && s.analysisResult && s.fileToUpload then
      some { s with uploading := true, uploadInFlight := s.uploadInFlight + 1 }
    else none
  | .uploadSettled =>
    if 0 < s.uploadInFlight then
      some { s with uploading := false, uploadInFlight := s.uploadInFlight - 1
                    showConfirmUpload := false, fileToUpload := false
                    analysisResult := false }
    else none
  | .closeConfirmModal =>
    if s.showConfirmUpload then some { s with showConfirmUpload := false } else none
  | .clickRenameIcon =>
    if pageClickable s then
      some { s with fileToRename := true, showRename := true }
    else none
  | .clickSaveChanges =>
    if s.showRename && !s.isRenaming && s.fileToRename then
      some { s with isRenaming := true, renameInFlight := s.renameInFlight + 1 }
    else none
  | .renameSettled =>
    if 0 < s.renameInFlight then
      some { s with isRenaming := false, renameInFlight := s.renameInFlight - 1
                    showRename := false, fileToRename := false }
    else none

/-- Run a sequence of events from a state; fails if any event is disabled. -/
def runUi : List UiEvent → ClientState → Option ClientState
  | [], s => some s
  | e :: es, s =>
    match stepUi e s with
    | none => none
    | some s2 => runUi es s2

/-! ### Helper lemmas -/

theorem splitDot_ne_nil (l : List Char) : splitDot l ≠ [] := by
  cases l with
  | nil => simp [splitDot]
  | cons c cs =>
    simp only [splitDot]
    split
    · simp
    · cases h : splitDot cs <;> simp

theorem splitDot_append_dot (u v : List Char) :
    splitDot (u ++ '.' :: v) = splitDot u ++ splitDot v := by
  induction u with
  | nil => simp [splitDot]
  | cons c cs ih =>
    simp only [List.cons_append, splitDot, List.append_eq]
    by_cases hc : c = '.'
    · rw [if_pos hc, if_pos hc, ih]
      simp
    · rw [if_neg hc, if_neg hc, ih]
      cases h : splitDot cs with
      | nil => exact absurd h (splitDot_ne_nil cs)
      | cons h0 t => simp

theorem splitDot_no_dot (l : List Char) (h : '.' ∉ l) : splitDot l = [l] := by
  induction l with
  | nil => rfl
  | cons c cs ih =>
    simp only [List.mem_cons, not_or] at h
    have hc : ¬ c = '.' := fun hcc => h.1 hcc.symm
    simp only [splitDot, if_neg hc, ih h.2]

theorem no_dot_of_mem_splitDot : ∀ {l p : List Char}, p ∈ splitDot l → '.' ∉ p := by
  intro l
  induction l with
  | nil =>
    intro p hp
    simp [splitDot] at hp
    simp [hp]
  | cons c cs ih =>
    intro p hp
    by_cases hc : c = '.'
    · simp only [splitDot, if_pos hc, List.mem_cons] at hp
      rcases hp with h | h
      · simp [h]
      · exact ih h
    · simp only [splitDot, if_neg hc] at hp
      cases hs : splitDot cs with
      | nil => exact absurd hs (splitDot_ne_nil cs)
      | cons h0 t =>
        rw [hs] at hp
        rcases List.mem_cons.mp hp with h | h
        · subst h
          intro hmem
          rcases List.mem_cons.mp hmem with h1 | h1
          · exact hc h1.symm
          · exact ih (hs ▸ List.mem_cons_self h0 t) h1
        · exact ih (hs ▸ List.mem_cons_of_mem h0 h)

theorem lastD_mem_of_ne_nil {α : Type} (l : List α) (d : α) (h : l ≠ []) :
    lastD l d ∈ l := by
  induction l with
  | nil => exact absurd rfl h
  | cons x xs ih =>
    cases xs with
    | nil => simp [lastD]
    | cons y ys =>
      have := ih (by simp)
      simp only [lastD]
      exact List.mem_cons_of_mem x this

theorem lastD_append_of_ne_nil {α : Type} (xs ys : List α) (d : α) (h : ys ≠ []) :
    lastD (xs ++ ys) d = lastD ys d := by
  induction xs with
  | nil => rfl
  | cons x xl ih =>
    have hne : xl ++ ys ≠ [] := by
      simp only [ne_eq, List.append_eq_nil, not_and]
      intro _; exact h
    cases he : xl ++ ys with
    | nil => exact absurd he hne
    | cons z zs =>
      have hx : (x :: xl) ++ ys = x :: z :: zs := by
        rw [List.cons_append, he]
      rw [hx]
      simp only [lastD]
      rw [← he, ih]

theorem lastD_singleton {α : Type} (x : α) (d : α) : lastD [x] d = x := rfl

theorem find?_filter_none {α : Type} (l : List α) (p q : α → Bool)
    (h : ∀ a, q a = true → p a = false) : (l.filter q).find? p = none := by
  induction l with
  | nil => rfl
  | cons x xs ih =>
    rw [List.filter_cons]
    cases hq : q x with
    | false => simpa using ih
    | true =>
      have hp := h x hq
      simp [List.find?_cons, hp, ih]

theorem find?_filter_eq {α : Type} (l : List α) (p q : α → Bool)
    (h : ∀ a, p a = true → q a = true) : (l.filter q).find? p = l.find? p := by
  induction l with
  | nil => rfl
  | cons x xs ih =>
    rw [List.filter_cons]
    cases hq : q x with
    | true =>
      cases hp : p x with
      | true => simp [List.find?_cons, hp]
      | false => simp [List.find?_cons, hp, ih]
    | false =>
      have hp : p x = false := by
        cases hpx : p x with
        | false => rfl
        | true => rw [h x hpx] at hq; exact absurd hq (by simp)
      simp [List.find?_cons, hp, ih]

theorem storageLookup_remove_self (s : List (String × Bytes)) (n : String) :
    storageLookup (storageRemove s n) n = none := by
  unfold storageLookup storageRemove
  rw [find?_filter_none]
  · rfl
  · intro a hq
    simp only [bne_iff_ne, ne_eq] at hq
    simp [hq]

theorem storageLookup_remove_ne (s : List (String × Bytes)) (n m : String)
    (h : m ≠ n) : storageLookup (storageRemove s n) m = storageLookup s m := by
  unfold storageLookup storageRemove
  rw [find?_filter_eq]
  intro a hp
  have ha : a.1 = m := beq_iff_eq.mp hp
  simp [bne, ha, h]

theorem mem_insertDesc (a r : FileRow) (l : List FileRow) :
    a ∈ insertDesc r l ↔ a = r ∨ a ∈ l := by
  induction l with
  | nil => simp [insertDesc]
  | cons x xs ih =>
    simp only [insertDesc]
    split
    · simp
    · simp only [List.mem_cons, ih]
      tauto

theorem mem_sortByCreatedDesc (a : FileRow) (l : List FileRow) :
    a ∈ sortByCreatedDesc l ↔ a ∈ l := by
  induction l with
  | nil => simp [sortByCreatedDesc]
  | cons x xs ih =>
    simp only [sortByCreatedDesc, mem_insertDesc, ih, List.mem_cons]

/-- The rows of the `files` table that belong to users other than `u`. -/
def othersDb (u : UserId) (db : List FileRow) : List FileRow :=
  db.filter (fun r => r.user_id != u)

theorem renameRow_user_id (old new : String) (u : UserId) (r : FileRow) :
    (renameRow old new u r).user_id = r.user_id := by
  simp only [renameRow]
  split <;> rfl

theorem othersDb_dbDelete (u : UserId) (db : List FileRow) (n : String) :
    othersDb u (dbDelete db n u) = othersDb u db := by
  simp only [othersDb, dbDelete, List.filter_filter]
  refine List.filter_congr ?_
  intro r _
  by_cases hu : r.user_id = u <;> simp [hu, bne]

theorem othersDb_dbUpdateName (u : UserId) (db : List FileRow) (old new : String) :
    othersDb u (dbUpdateName db old new u) = othersDb u db := by
  simp only [othersDb, dbUpdateName]
  induction db with
  | nil => rfl
  | cons r rs ih =>
    simp only [List.map_cons, List.filter_cons, renameRow_user_id]
    cases hq : (r.user_id != u) with
    | false => exact ih
    | true =>
      have hr : renameRow old new u r = r := by
        have hu : ¬ r.user_id = u := by
          intro hc
          simp [bne, hc] at hq
        simp [renameRow, hu]
      rw [hr, ih]

theorem othersDb_append (u : UserId) (db : List FileRow) (r : FileRow)
    (h : r.user_id = u) : othersDb u (db ++ [r]) = othersDb u db := by
  simp only [othersDb, List.filter_append]
  have hb : (r.user_id != u) = false := by simp [bne, h]
  simp [List.filter_cons, hb]

/-! ### Concrete fixtures for witnesses and counterexamples -/

/-- The empty server state. -/
def emptyState : ServerState := { db := [], storage := [] }

/-- A trivial route handler used to instantiate generic theorems. -/
def idHandler : Option FileData → ServerState → Nat × ServerState :=
  fun _ st => (0, st)

/-- A trivial authenticated handler that reports the acting user. -/
def userHandler : UserId → ServerState → UserId × ServerState :=
  fun u st => (u, st)

/-- A token oracle accepting exactly the token `tok` as user 1. -/
def oneTokenOracle : String → Option UserId :=
  fun t => if t == ("tok") then some 1 else none

/-- A plain text file, outside the allowed mimetypes. -/
def textFile : FileData :=
  { originalname := ("notes.txt"), mimetype := ("text/plain"), size := 10, buffer := 1 }

/-- A small PNG file, inside the allowed mimetypes. -/
def pngFile : FileData :=
  { originalname := ("photo.png"), mimetype := ("image/png"), size := 1000, buffer := 2 }

/-- A PNG file one byte over the 5 MB limit. -/
def bigFile : FileData :=
  { originalname := ("big.png"), mimetype := ("image/png"),
    size := 5 * 1024 * 1024 + 1, buffer := 3 }

/-! ### C6 — mimetype allow-list -/

/-- C6: uploads are restricted to images, PDF and DOCX.  For every file
submitted to a route behind `upload.single("file")` (both `/analyze-file`
and `/upload` use this same multer instance), a mimetype outside
`allowedTypes` makes the `fileFilter` reject with the error message
`Only JPEG, PNG, PDF, and DOCX files are allowed`, the handler body never
runs and the server state is untouched; a file of one of the four allowed
mimetypes passes the filter. -/
theorem claim6_mimetype_allowlist {ρ : Type} (f : FileData)
    (handler : Option FileData → ServerState → ρ × ServerState)
    (st : ServerState) :
    (allowedTypes.contains f.mimetype = false →
      fileFilter f.mimetype =
        .error ("Only JPEG, PNG, PDF, and DOCX files are allowed") ∧
      routeWithMulter (some f) handler st =
        (.rejected (.filtered ("Only JPEG, PNG, PDF, and DOCX files are allowed")), st)) ∧
    (allowedTypes.contains f.mimetype = true → fileFilter f.mimetype = .ok ()) := by
  constructor
  · intro h
    have hf : fileFilter f.mimetype =
        .error ("Only JPEG, PNG, PDF, and DOCX files are allowed") := by
      unfold fileFilter
      rw [h]
      rfl
    exact ⟨hf, by simp [routeWithMulter, multerGate, hf]⟩
  · intro h
    unfold fileFilter
    rw [h]
    rfl

/-- Witness for C6 at a text file and a PNG file. -/
theorem claim6_mimetype_allowlist_witness :
    routeWithMulter (some textFile) idHandler emptyState =
      (.rejected (.filtered ("Only JPEG, PNG, PDF, and DOCX files are allowed")), emptyState) ∧
    fileFilter ("image/png") = .ok () := by
  constructor
  · exact ((claim6_mimetype_allowlist textFile idHandler emptyState).1 (by decide)).2
  · exact (claim6_mimetype_allowlist pngFile idHandler emptyState).2 (by decide)

/-! ### C9 — 5 MB size limit, server and client -/

/-- C9: both `/analyze-file` and `/upload` sit behind the same multer
instance whose `limits.fileSize` is `5 * 1024 * 1024`, so a file strictly
larger than that is rejected before the handler body runs and the server
state is untouched; on the client, the dropzone (`maxSize` 5 MB) does not
start a request for such a file and instead raises a toast whose message
begins `File is too large`. -/
theorem claim9_size_limit {ρ : Type} (f : FileData)
    (handler : Option FileData → ServerState → ρ × ServerState)
    (st : ServerState) (render : Nat → String) :
    (f.size > fileSizeLimit →
      (∀ r : ρ, (routeWithMulter (some f) handler st).1 ≠ .handled r) ∧
      (routeWithMulter (some f) handler st).2 = st) ∧
    (f.size > dropzoneMaxSize →
      dropzoneOnDrop render f = .rejectedToast (onDropRejectedMessage render f) ∧
      ∃ rest, onDropRejectedMessage render f = ("File is too large") ++ rest) := by
  constructor
  · intro h
    have hacc : multerGate f ≠ .accepted := by
      unfold multerGate
      cases hf : fileFilter f.mimetype with
      | error e => simp
      | ok _ => simp [h]
    cases hg : multerGate f with
    | accepted => exact absurd hg hacc
    | filtered e =>
      refine ⟨fun r => ?_, ?_⟩ <;> simp [routeWithMulter, hg]
    | tooLarge =>
      refine ⟨fun r => ?_, ?_⟩ <;> simp [routeWithMulter, hg]
  · intro h
    have hacc : dropzoneAccepts f = false := by
      simp [dropzoneAccepts, Nat.not_le.mpr h]
    refine ⟨by simp [dropzoneOnDrop, hacc], ?_⟩
    refine ⟨(": ") ++ render f.size ++ (" MB. Max allowed is 5 MB."), ?_⟩
    unfold onDropRejectedMessage
    have h1 : ("File is too large") ++ (": ") = ("File is too large: ") := rfl
    rw [← h1]
    rw [String.append_assoc, String.append_assoc, String.append_assoc]

/-- Witness for C9 at a file one byte over the limit. -/
theorem claim9_size_limit_witness :
    (∀ r : Nat, (routeWithMulter (some bigFile) idHandler emptyState).1 ≠ .handled r) ∧
    dropzoneOnDrop toString bigFile =
      .rejectedToast (onDropRejectedMessage toString bigFile) := by
  constructor
  · exact ((claim9_size_limit bigFile idHandler emptyState toString).1 (by decide)).1
  · exact ((claim9_size_limit bigFile idHandler emptyState toString).2 (by decide)).1

/-! ### C2 — bearer-token validation on protected routes -/

/-- C2: every protected route (`/analyze-file`, `/upload` and the three
`/files` routes are all registered with `authenticateUser` first) responds
401 and leaves the server state untouched — so no storage or database write
occurs — when the Authorization header is absent, does not start with
`Bearer `, or carries a token the identity provider rejects; when the token
is valid the handler runs as the token's user. -/
theorem claim2_auth_gate {ρ : Type} (validate : String → Option UserId)
    (authHeader : Option String)
    (handler : UserId → ServerState → ρ × ServerState) (st : ServerState) :
    (authHeader = none →
      protectedRoute validate authHeader handler st =
        (.unauthorized ("No token provided"), st)) ∧
    (∀ h, authHeader = some h → jsStartsWith h ("Bearer ") = false →
      protectedRoute validate authHeader handler st =
        (.unauthorized ("No token provided"), st)) ∧
    (∀ h, authHeader = some h → jsStartsWith h ("Bearer ") = true →
      validate (jsSubstring h 7) = none →
      protectedRoute validate authHeader handler st =
        (.unauthorized ("Invalid token"), st)) ∧
    (∀ h u, authHeader = some h → jsStartsWith h ("Bearer ") = true →
      validate (jsSubstring h 7) = some u →
      protectedRoute validate authHeader handler st =
        (.handled (handler u st).1, (handler u st).2)) := by
  refine ⟨?_, ?_, ?_, ?_⟩
  · intro hn
    simp [protectedRoute, authenticateUser, hn]
  · intro h hh hb
    simp [protectedRoute, authenticateUser, hh, hb]
  · intro h hh hb hv
    simp [protectedRoute, authenticateUser, hh, hb, hv]
  · intro h u hh hb hv
    simp [protectedRoute, authenticateUser, hh, hb, hv]

/-- Witness for C2: missing header, malformed header, rejected token and
accepted token, against a one-token oracle. -/
theorem claim2_auth_gate_witness :
    protectedRoute oneTokenOracle none userHandler emptyState =
      (.unauthorized ("No token provided"), emptyState) ∧
    protectedRoute oneTokenOracle (some ("Basic abc")) userHandler emptyState =
      (.unauthorized ("No token provided"), emptyState) ∧
    protectedRoute oneTokenOracle (some ("Bearer bad")) userHandler emptyState =
      (.unauthorized ("Invalid token"), emptyState) ∧
    protectedRoute oneTokenOracle (some ("Bearer tok")) userHandler emptyState =
      (.handled 1, emptyState) := by
  refine ⟨?_, ?_, ?_, ?_⟩
  · exact (claim2_auth_gate oneTokenOracle none userHandler emptyState).1 rfl
  · exact (claim2_auth_gate oneTokenOracle (some ("Basic abc")) userHandler
      emptyState).2.1 ("Basic abc") rfl (by decide)
  · exact (claim2_auth_gate oneTokenOracle (some ("Bearer bad")) userHandler
      emptyState).2.2.1 ("Bearer bad") rfl (by decide) (by decide)
  · exact (claim2_auth_gate oneTokenOracle (some ("Bearer tok")) userHandler
      emptyState).2.2.2 ("Bearer tok") 1 rfl (by decide) (by decide)

/-! ### C7 — what `/analyze-file` relays -/

/-- A sample AI output with mixed case and trailing whitespace. -/
def aiSample : AnalysisData :=
  { descriptiveFilename := ("Quarterly_Report")
    categories := [("Finance")]
    tags := [("Tax Documents ")] }

/-- C7 (amended): `/analyze-file` relays the AI endpoint's
`descriptiveFilename` unchanged, but `categories` and `tags` are each
mapped through `toLowerCase().trim()` before being returned, and the
response additionally carries the original file's extension. -/
theorem claim7_analyze_relay (file : FileData) (ai : AnalysisData) :
    (analyzeHandler file ai).descriptiveFilename = ai.descriptiveFilename ∧
    (analyzeHandler file ai).categories = ai.categories.map lowerTrim ∧
    (analyzeHandler file ai).tags = ai.tags.map lowerTrim ∧
    (analyzeHandler file ai).extension = lastDotPart file.originalname :=
  ⟨rfl, rfl, rfl, rfl⟩

/-- Counterexample to C7 as stated: for the AI output tagging a file
`Tax Documents ` the relayed tag is `tax documents`, not the AI's value, so
the response `tags` do not equal the AI object's `tags`. -/
theorem claim7_analyze_relay_counterexample :
    (analyzeHandler pngFile aiSample).tags ≠ aiSample.tags ∧
    (analyzeHandler pngFile aiSample).tags = [("tax documents")] := by
  constructor
  · decide
  · decide

/-! ### C10 — the rename dialog preserves the extension -/

/-- C10: for a file name containing at least one dot, the rename dialog
splits off the part after the last dot; whatever base name the user edits
in, the submitted `newName` is the trimmed base followed by a dot and that
extension, and the extension (the part after the last dot) of the submitted
name equals the original file's extension. -/
theorem claim10_rename_preserves_extension (fileName editedBase : String)
    (_hdot : '.' ∈ fileName.data) (res : String)
    (hres : confirmRenameNewName editedBase (renameExtension fileName) = some res) :
    res.data = (jsTrim editedBase).data ++ '.' :: (renameExtension fileName).data ∧
    lastDotPart res = renameExtension fileName := by
  unfold confirmRenameNewName at hres
  by_cases hE : (jsTrim editedBase).data = []
  · rw [if_pos hE] at hres
    exact absurd hres (by simp)
  · rw [if_neg hE] at hres
    have hres2 := Option.some.inj hres
    subst hres2
    refine ⟨rfl, ?_⟩
    have hext : (renameExtension fileName).data = lastD (splitDot fileName.data) [] := rfl
    have hmem : (renameExtension fileName).data ∈ splitDot fileName.data := by
      rw [hext]
      exact lastD_mem_of_ne_nil _ _ (splitDot_ne_nil fileName.data)
    have hnodot : '.' ∉ (renameExtension fileName).data :=
      no_dot_of_mem_splitDot hmem
    show String.mk (lastD (splitDot (String.mk
        ((jsTrim editedBase).data ++ '.' :: (renameExtension fileName).data)).data) []) =
      renameExtension fileName
    have hdata : (String.mk ((jsTrim editedBase).data ++ '.' ::
        (renameExtension fileName).data)).data =
        (jsTrim editedBase).data ++ '.' :: (renameExtension fileName).data := rfl
    rw [hdata, splitDot_append_dot,
        lastD_append_of_ne_nil _ _ _ (splitDot_ne_nil _),
        splitDot_no_dot _ hnodot, lastD_singleton]

/-- Witness for C10: renaming `vacation.photo.jpg` with edited base
` beach.day ` submits `beach.day.jpg`, whose extension is still `jpg`. -/
theorem claim10_rename_preserves_extension_witness :
    ("beach.day.jpg").data =
      (jsTrim (" beach.day ")).data ++ '.' :: (renameExtension ("vacation.photo.jpg")).data ∧
    lastDotPart ("beach.day.jpg") = renameExtension ("vacation.photo.jpg") :=
  claim10_rename_preserves_extension ("vacation.photo.jpg") (" beach.day ")
    (by decide) ("beach.day.jpg") (by decide)

/-! ### C4 — upload writes exactly the stored object and one row -/

/-- C4: a successful `POST /upload` with a provided (non-empty)
`descriptiveFilename` performs exactly two writes: the file's bytes are
stored in the bucket under that name, and one row is inserted into the
`files` table carrying that name, the file's size, the parsed `tags` and
`categories` arrays from the body, and the authenticated user's id; the
response carries the name as `filePath`.  (The storage write succeeding
requires the object name to be free, which is the handler's own success
condition: a duplicate name makes storage error and the handler return 400
with no insert.) -/
theorem claim4_upload_two_writes (u : UserId) (now : Nat) (f : FileData)
    (body : UploadBody) (st : ServerState) (name : String)
    (tags cats : List String)
    (hname : body.descriptiveFilename = some name) (hne : name ≠ (""))
    (htags : body.tags = some tags) (hcats : body.categories = some cats)
    (hfree : storageLookup st.storage name = none) :
    uploadHandler u now (some f) body st =
      (.uploaded ("File uploaded successfully") name,
       { db := st.db ++ [{ name := name, size := f.size, tags := tags,
                           categories := cats, user_id := u, created_at := now }],
         storage := (name, f.buffer) :: st.storage }) := by
  have hbe : (name == ("")) = false := beq_eq_false_iff_ne.mpr hne
  have hjs : jsOrElse body.descriptiveFilename (toString now ++ ("_") ++ f.originalname) = name := by
    rw [hname]
    simp [jsOrElse, hbe]
  have hup : storageUpload st.storage name f.buffer = .ok ((name, f.buffer) :: st.storage) := by
    unfold storageUpload
    rw [hfree]
  unfold uploadHandler
  rw [hname, htags, hcats]
  simp only [jsOrElse, hbe, Bool.false_eq_true, if_false, Option.getD_some, hup]

/-- The multipart body the client builds for a sunset photo. -/
def sunsetBody : UploadBody :=
  { descriptiveFilename := some ("Sunset_Photo.png")
    tags := some [("sunset"), ("beach")]
    categories := some [("photos")] }

/-- Witness for C4: uploading the PNG fixture into the empty state. -/
theorem claim4_upload_two_writes_witness :
    uploadHandler 1 5 (some pngFile) sunsetBody emptyState =
      (.uploaded ("File uploaded successfully") ("Sunset_Photo.png"),
       { db := [{ name := ("Sunset_Photo.png"), size := 1000,
                  tags := [("sunset"), ("beach")], categories := [("photos")],
                  user_id := 1, created_at := 5 }],
         storage := [(("Sunset_Photo.png"), 2)] }) :=
  claim4_upload_two_writes 1 5 pngFile sunsetBody emptyState ("Sunset_Photo.png")
    [("sunset"), ("beach")] [("photos")] rfl (by decide) rfl rfl rfl

/-! ### C5 — delete reverses the two writes of upload -/

/-- C5 (amended): when the ownership lookup of `(filename, caller)` via
`.single()` succeeds — that is, exactly one row matches — `DELETE
/files/:filename` removes the object of that name from storage and deletes
the row, and a subsequent `GET /files` by the same user no longer includes
any file of that name; when the lookup fails (no matching row, or more than
one, a state rename collisions can create) it responds 404 and neither
storage nor the database is changed. -/
theorem claim5_delete_reverses_upload (u : UserId) (fname : String) (st : ServerState) :
    (∀ row, dbSingle st.db fname u = some row →
      deleteHandler u fname st =
        (.deleted, { db := dbDelete st.db fname u,
                     storage := storageRemove st.storage fname }) ∧
      storageLookup (storageRemove st.storage fname) fname = none ∧
      (∀ r, r ∈ listFiles u { db := dbDelete st.db fname u,
                              storage := storageRemove st.storage fname } →
        r.name ≠ fname)) ∧
    (dbSingle st.db fname u = none →
      deleteHandler u fname st = (.notFound, st)) := by
  constructor
  · intro row h
    refine ⟨?_, storageLookup_remove_self st.storage fname, ?_⟩
    · unfold deleteHandler
      rw [h]
    · intro r hr
      simp only [listFiles, mem_sortByCreatedDesc, List.mem_filter] at hr
      obtain ⟨hrdel, hru⟩ := hr
      simp only [dbDelete, List.mem_filter] at hrdel
      obtain ⟨_, hkeep⟩ := hrdel
      intro hrn
      have hb : (r.name == fname) = true := beq_iff_eq.mpr hrn
      rw [hb, hru] at hkeep
      exact absurd hkeep (by simp)
  · intro h
    unfold deleteHandler
    rw [h]

/-- Witness for C5: deleting the only uploaded file from a one-file state,
and a 404 on a name with no row. -/
theorem claim5_delete_reverses_upload_witness :
    deleteHandler 1 ("Sunset_Photo.png")
        { db := [{ name := ("Sunset_Photo.png"), size := 1000,
                   tags := [], categories := [], user_id := 1, created_at := 5 }],
          storage := [(("Sunset_Photo.png"), 2)] } =
      (.deleted, { db := [], storage := [] }) ∧
    deleteHandler 1 ("missing.png") emptyState = (.notFound, emptyState) := by
  constructor
  · have h := ((claim5_delete_reverses_upload 1 ("Sunset_Photo.png")
      { db := [{ name := ("Sunset_Photo.png"), size := 1000,
                 tags := [], categories := [], user_id := 1, created_at := 5 }],
        storage := [(("Sunset_Photo.png"), 2)] }).1
      { name := ("Sunset_Photo.png"), size := 1000,
        tags := [], categories := [], user_id := 1, created_at := 5 } (by decide)).1
    rw [h]
    decide
  · exact (claim5_delete_reverses_upload 1 ("missing.png") emptyState).2 (by decide)

/-- A small PDF fixture. -/
def fileTxtA : FileData :=
  { originalname := ("a.txt"), mimetype := ("application/pdf"), size := 10, buffer := 7 }

/-- A second PDF fixture. -/
def fileTxtB : FileData :=
  { originalname := ("b.txt"), mimetype := ("application/pdf"), size := 20, buffer := 8 }

/-- Upload body naming `a.txt`. -/
def bodyTxtA : UploadBody :=
  { descriptiveFilename := some ("a.txt"), tags := some [], categories := some [] }

/-- Upload body naming `b.txt`. -/
def bodyTxtB : UploadBody :=
  { descriptiveFilename := some ("b.txt"), tags := some [], categories := some [] }

/-- A state with two rows named `b.txt` for user 1, reached from the empty
state by that user's own handler calls alone: upload `a.txt`, upload
`b.txt`, then rename `a.txt` to `b.txt` (the metadata update has no
uniqueness guard). -/
def dupRowState : ServerState :=
  (renameHandler 1 ("a.txt") (some ("b.txt"))
    ((uploadHandler 1 11 (some fileTxtB) bodyTxtB
      ((uploadHandler 1 10 (some fileTxtA) bodyTxtA emptyState).2)).2)).2

/-- Counterexample to C5 as stated: in `dupRowState` rows matching
`(b.txt, user 1)` exist (two of them), yet the delete responds 404 and
changes nothing, because `.single()` errors on a non-singleton result. -/
theorem claim5_delete_reverses_upload_counterexample :
    (dupRowState.db.filter (fun r => r.name == ("b.txt") && r.user_id == 1)).length = 2 ∧
    deleteHandler 1 ("b.txt") dupRowState = (.notFound, dupRowState) := by
  constructor
  · decide
  · decide

/-! ### C3 — rename as copy + delete plus metadata update -/

/-- C3 (amended): on `PUT /files/:filename` with a non-empty `newName`
different from the old name, when the ownership lookup via `.single()`
returns a row and the object under the old name is downloadable, the
handler uploads the downloaded bytes under `newName` (upsert), removes the
object under the old name, and sets the matching row's `name` to
`newName`; afterwards the bytes are reachable under `newName`, no object
remains under the old name, and every row update changes the `name` field
only — `size`, `tags`, `categories`, `user_id` and `created_at` of every
row are unchanged. -/
theorem claim3_rename_copy_delete (u : UserId) (oldName newName : String)
    (st : ServerState) (row : FileRow) (bytes : Bytes)
    (hrow : dbSingle st.db oldName u = some row)
    (hbytes : storageLookup st.storage oldName = some bytes)
    (hne : newName ≠ oldName) (hnonempty : newName ≠ ("")) :
    renameHandler u oldName (some newName) st =
      (.renamed, { db := dbUpdateName st.db oldName newName u,
                   storage := storageRemove (storageUpsert st.storage newName bytes) oldName }) ∧
    storageLookup (storageRemove (storageUpsert st.storage newName bytes) oldName) newName
      = some bytes ∧
    storageLookup (storageRemove (storageUpsert st.storage newName bytes) oldName) oldName
      = none ∧
    (∀ r, (renameRow oldName newName u r).size = r.size ∧
          (renameRow oldName newName u r).tags = r.tags ∧
          (renameRow oldName newName u r).categories = r.categories ∧
          (renameRow oldName newName u r).user_id = r.user_id ∧
          (renameRow oldName newName u r).created_at = r.created_at) := by
  have hbe : (newName == ("")) = false := beq_eq_false_iff_ne.mpr hnonempty
  refine ⟨?_, ?_, storageLookup_remove_self _ _, ?_⟩
  · unfold renameHandler
    rw [hrow, hbytes]
    simp [hbe]
  · rw [storageLookup_remove_ne _ _ _ hne]
    unfold storageUpsert storageLookup
    simp [List.find?_cons]
  · intro r
    unfold renameRow
    split
    · exact ⟨rfl, rfl, rfl, rfl, rfl⟩
    · exact ⟨rfl, rfl, rfl, rfl, rfl⟩

/-- The one-file state reached by uploading `a.txt` into the empty state. -/
def oneFileState : ServerState :=
  (uploadHandler 1 10 (some fileTxtA) bodyTxtA emptyState).2

/-- Witness for C3: renaming `a.txt` to `c.txt` in the one-file state. -/
theorem claim3_rename_copy_delete_witness :
    renameHandler 1 ("a.txt") (some ("c.txt")) oneFileState =
      (.renamed, { db := dbUpdateName oneFileState.db ("a.txt") ("c.txt") 1,
                   storage := storageRemove
                     (storageUpsert oneFileState.storage ("c.txt") 7) ("a.txt") }) ∧
    storageLookup (storageRemove
      (storageUpsert oneFileState.storage ("c.txt") 7) ("a.txt")) ("c.txt") = some 7 :=
  have h := claim3_rename_copy_delete 1 ("a.txt") ("c.txt") oneFileState
    { name := ("a.txt"), size := 10, tags := [], categories := [],
      user_id := 1, created_at := 10 } 7
    (by decide) (by decide) (by decide) (by decide)
  ⟨h.1, h.2.1⟩

/-- Counterexample to C3 as stated: renaming `a.txt` to the same name
`a.txt` succeeds (the handler reports `File renamed`), yet afterwards no
object is reachable under the new name at all — the upsert re-creates the
object and the subsequent `remove([oldName])` deletes it, because old and
new name coincide.  So after a success the file's bytes need not be
reachable under `newName`. -/
theorem claim3_rename_copy_delete_counterexample :
    (renameHandler 1 ("a.txt") (some ("a.txt")) oneFileState).1 = .renamed ∧
    storageLookup oneFileState.storage ("a.txt") = some 7 ∧
    storageLookup ((renameHandler 1 ("a.txt") (some ("a.txt")) oneFileState).2).storage
      ("a.txt") = none := by
  refine ⟨?_, ?_, ?_⟩
  · decide
  · decide
  · decide

/-! ### C1 — per-user scoping of the file routes -/

/-- C1 (amended): `GET /files` returns only rows whose `user_id` is the
caller's; `DELETE /files/:filename` and `PUT /files/:filename` (with a
non-empty `newName`) respond 404 and change nothing when no row matches the
filename and the caller's id; and no operation by a user ever observes or
modifies another user's rows in the `files` table.  (The analogous
statement for storage objects is false — see the counterexample — because
the bucket is keyed by object name alone and rename uploads with upsert.) -/
theorem claim1_user_scoping (u : UserId) (fname newName : String) (now : Nat)
    (file : Option FileData) (body : UploadBody) (st : ServerState) :
    (∀ r, r ∈ listFiles u st → r.user_id = u) ∧
    (dbMatches st.db fname u = [] → deleteHandler u fname st = (.notFound, st)) ∧
    (dbMatches st.db fname u = [] → newName ≠ ("") →
      renameHandler u fname (some newName) st = (.notFound, st)) ∧
    othersDb u ((deleteHandler u fname st).2).db = othersDb u st.db ∧
    othersDb u ((renameHandler u fname (some newName) st).2).db = othersDb u st.db ∧
    othersDb u ((uploadHandler u now file body st).2).db = othersDb u st.db := by
  have hsingle : dbMatches st.db fname u = [] → dbSingle st.db fname u = none := by
    intro h
    unfold dbSingle
    rw [h]
  refine ⟨?_, ?_, ?_, ?_, ?_, ?_⟩
  · intro r hr
    simp only [listFiles, mem_sortByCreatedDesc, List.mem_filter] at hr
    exact beq_iff_eq.mp hr.2
  · intro h
    unfold deleteHandler
    rw [hsingle h]
  · intro h hne
    have hbe : (newName == ("")) = false := beq_eq_false_iff_ne.mpr hne
    unfold renameHandler
    rw [hsingle h]
    simp [hbe]
  · unfold deleteHandler
    cases h : dbSingle st.db fname u with
    | none => rfl
    | some row => exact othersDb_dbDelete u st.db fname
  · unfold renameHandler
    by_cases hbe : newName = ("")
    · simp [hbe]
    · have hb2 : (newName == ("")) = false := beq_eq_false_iff_ne.mpr hbe
      cases h : dbSingle st.db fname u with
      | none => simp [hb2, h]
      | some row =>
        cases hb : storageLookup st.storage fname with
        | none => simp [hb2, h, hb]
        | some bytes => simp [hb2, h, hb, othersDb_dbUpdateName]
  · unfold uploadHandler
    cases file with
    | none => rfl
    | some f =>
      cases hs : storageUpload st.storage
          (jsOrElse body.descriptiveFilename (toString now ++ ("_") ++ f.originalname))
          f.buffer with
      | error e => simp [hs]
      | ok storage1 =>
        simp only [hs]
        exact othersDb_append u st.db _ rfl

/-- A state holding one file of user 1 and one of user 2. -/
def twoUserState : ServerState :=
  { db := [{ name := ("mine.pdf"), size := 10, tags := [], categories := [],
             user_id := 1, created_at := 3 },
           { name := ("theirs.pdf"), size := 20, tags := [], categories := [],
             user_id := 2, created_at := 4 }],
    storage := [(("mine.pdf"), 7), (("theirs.pdf"), 8)] }

/-- Witness for C1: user 1 against the two-user state, operating on user
2's filename `theirs.pdf` (no row of user 1 matches it). -/
theorem claim1_user_scoping_witness :
    (∀ r, r ∈ listFiles 1 twoUserState → r.user_id = 1) ∧
    deleteHandler 1 ("theirs.pdf") twoUserState = (.notFound, twoUserState) ∧
    renameHandler 1 ("theirs.pdf") (some ("stolen.pdf")) twoUserState =
      (.notFound, twoUserState) := by
  have h := claim1_user_scoping 1 ("theirs.pdf") ("stolen.pdf") 9
    (some fileTxtA) bodyTxtA twoUserState
  exact ⟨h.1, h.2.1 (by decide), h.2.2.1 (by decide) (by decide)⟩

/-- User 1's PDF, bytes 200. -/
def filePdfA : FileData :=
  { originalname := ("a.pdf"), mimetype := ("application/pdf"), size := 2, buffer := 200 }

/-- User 2's PDF, bytes 100. -/
def filePdfB : FileData :=
  { originalname := ("b.pdf"), mimetype := ("application/pdf"), size := 1, buffer := 100 }

/-- Upload body naming `a.pdf`. -/
def bodyPdfA : UploadBody :=
  { descriptiveFilename := some ("a.pdf"), tags := some [], categories := some [] }

/-- Upload body naming `b.pdf`. -/
def bodyPdfB : UploadBody :=
  { descriptiveFilename := some ("b.pdf"), tags := some [], categories := some [] }

/-- The state after: user 2 uploads `b.pdf` (bytes 100), then user 1
uploads `a.pdf` (bytes 200).  Both uploads succeed. -/
def crossUserState : ServerState :=
  (uploadHandler 1 11 (some filePdfA) bodyPdfA
    ((uploadHandler 2 10 (some filePdfB) bodyPdfB emptyState).2)).2

/-- Counterexample to C1's universal conclusion: starting from the empty
state, user 2 uploads `b.pdf` and user 1 uploads `a.pdf`; then user 1
renames their own `a.pdf` to `b.pdf`.  The rename succeeds (user 1 owns the
row for `a.pdf`), but its upsert-upload overwrites the storage object
`b.pdf` — the object user 2's row still references — replacing user 2's
bytes 100 with user 1's bytes 200.  So an operation performed by user 1
modifies a file owned by user 2. -/
theorem claim1_user_scoping_counterexample :
    storageLookup crossUserState.storage ("b.pdf") = some 100 ∧
    (crossUserState.db.filter (fun r => r.name == ("b.pdf") && r.user_id == 2)).length = 1 ∧
    (renameHandler 1 ("a.pdf") (some ("b.pdf")) crossUserState).1 = .renamed ∧
    storageLookup ((renameHandler 1 ("a.pdf") (some ("b.pdf")) crossUserState).2).storage
      ("b.pdf") = some 200 ∧
    (((renameHandler 1 ("a.pdf") (some ("b.pdf")) crossUserState).2).db.filter
      (fun r => r.name == ("b.pdf") && r.user_id == 2)).length = 1 := by
  refine ⟨?_, ?_, ?_, ?_, ?_⟩
  · decide
  · decide
  · decide
  · decide
  · decide

/-! ### C8 — double submission in the upload/analyze/confirm workflow -/

/-- Coupling invariant of the client machine for the rename and analyze
operations: at most one request of each is in flight, and the
corresponding `isProcessing` flag tracks exactly whether one is. -/
abbrev uiInv (s : ClientState) : Prop :=
  s.renameInFlight ≤ 1 ∧ (s.isRenaming = true ↔ s.renameInFlight = 1) ∧
  s.analyzeInFlight ≤ 1 ∧ (s.analyzing = true ↔ s.analyzeInFlight = 1)

theorem stepUi_preserves_inv (e : UiEvent) (s s2 : ClientState)
    (hi : uiInv s) (h : stepUi e s = some s2) : uiInv s2 := by
  obtain ⟨h1, h2, h3, h4⟩ := hi
  cases e <;> simp only [stepUi] at h
  case dropFile =>
    split at h
    · rename_i hg
      have hana : s.analyzing = false := by
        cases ha : s.analyzing with
        | false => rfl
        | true => simp [pageClickable, ha] at hg
      have hz : s.analyzeInFlight = 0 := by
        have hne : s.analyzeInFlight ≠ 1 := by
          intro hh
          exact absurd (h4.mpr hh) (by simp [hana])
        omega
      cases h
      exact ⟨h1, h2, by simp [hz], by simp [hz]⟩
    · exact absurd h (by simp)
  case analyzeSuccess =>
    split at h
    · rename_i hg
      have he : s.analyzeInFlight = 1 := by omega
      cases h
      exact ⟨h1, h2, by simp [he], by simp [he]⟩
    · exact absurd h (by simp)
  case analyzeFailure =>
    split at h
    · rename_i hg
      have he : s.analyzeInFlight = 1 := by omega
      cases h
      exact ⟨h1, h2, by simp [he], by simp [he]⟩
    · exact absurd h (by simp)
  case clickUploadFile =>
    split at h
    · cases h
      exact ⟨h1, h2, h3, h4⟩
    · exact absurd h (by simp)
  case uploadSettled =>
    split at h
    · cases h
      exact ⟨h1, h2, h3, h4⟩
    · exact absurd h (by simp)
  case closeConfirmModal =>
    split at h
    · cases h
      exact ⟨h1, h2, h3, h4⟩
    · exact absurd h (by simp)
  case clickRenameIcon =>
    split at h
    · cases h
      exact ⟨h1, h2, h3, h4⟩
    · exact absurd h (by simp)
  case clickSaveChanges =>
    split at h
    · rename_i hg
      have hnr : s.isRenaming = false := by
        cases hr : s.isRenaming with
        | false => rfl
        | true => simp [hr] at hg
      have hz : s.renameInFlight = 0 := by
        have hne : s.renameInFlight ≠ 1 := by
          intro hh
          exact absurd (h2.mpr hh) (by simp [hnr])
        omega
      cases h
      exact ⟨by simp [hz], by simp [hz], h3, h4⟩
    · exact absurd h (by simp)
  case renameSettled =>
    split at h
    · rename_i hg
      have he : s.renameInFlight = 1 := by omega
      cases h
      exact ⟨by simp [he], by simp [he], h3, h4⟩
    · exact absurd h (by simp)

theorem runUi_preserves_inv (evs : List UiEvent) (s s2 : ClientState)
    (hi : uiInv s) (h : runUi evs s = some s2) : uiInv s2 := by
  induction evs generalizing s with
  | nil =>
    simp only [runUi] at h
    cases h
    exact hi
  | cons e es ih =>
    simp only [runUi] at h
    cases hstep : stepUi e s with
    | none => rw [hstep] at h; exact absurd h (by simp)
    | some s1 =>
      rw [hstep] at h
      exact ih s1 (stepUi_preserves_inv e s s1 hi hstep) h

/-- C8 (amended): in every client state reachable from the initial one, at
most one rename request and at most one analysis request are in flight —
the `Save Changes` button is disabled while `isProcessing.renaming` and the
full-screen overlay blocks the dropzone while analyzing — so those two
operations cannot double-submit.  (Upload can: see the counterexample.) -/
theorem claim8_no_double_submit (evs : List UiEvent) (s : ClientState)
    (h : runUi evs initClient = some s) :
    s.renameInFlight ≤ 1 ∧ s.analyzeInFlight ≤ 1 ∧
    (s.isRenaming = true → stepUi .clickSaveChanges s = none) := by
  have hinit : uiInv initClient := by
    refine ⟨?_, ?_, ?_, ?_⟩ <;> simp [initClient]
  have hi := runUi_preserves_inv evs initClient s hinit h
  refine ⟨hi.1, hi.2.2.1, ?_⟩
  intro hr
  simp [stepUi, hr]

/-- Witness for C8 on the empty trace. -/
theorem claim8_no_double_submit_witness :
    initClient.renameInFlight ≤ 1 ∧ initClient.analyzeInFlight ≤ 1 ∧
    (initClient.isRenaming = true → stepUi .clickSaveChanges initClient = none) :=
  claim8_no_double_submit [] initClient rfl

/-- The state with two uploads outstanding that the counterexample trace
reaches. -/
def doubleUploadState : ClientState :=
  { showDelete := false, showRename := false, showConfirmUpload := true
    analyzing := false, uploading := true, isRenaming := false
    fileToUpload := true, analysisResult := true, fileToRename := false
    analyzeInFlight := 0, uploadInFlight := 2, renameInFlight := 0 }

/-- Counterexample to C8 as stated: drop a file, let the analysis succeed
(the confirm modal opens), click `Upload File`, and click it again while
the first upload is still in flight.  Every step is enabled — the modal
stacks above the processing overlay, its button has no `disabled`
attribute, and `handleFinalUpload` does not check `isProcessing.uploading`
— and the trace ends with `uploading = true` and two upload requests
outstanding. -/
theorem claim8_no_double_submit_counterexample :
    runUi [UiEvent.dropFile, UiEvent.analyzeSuccess,
           UiEvent.clickUploadFile, UiEvent.clickUploadFile] initClient =
      some doubleUploadState ∧
    doubleUploadState.uploading = true ∧
    doubleUploadState.uploadInFlight = 2 := by
  refine ⟨?_, rfl, rfl⟩
  decide

end FileDrop
